import Mathlib

/-!
Verification of the `linetest` measurement scheduler and evaluation layer.

This file is a shallow embedding of the Rust sources of the `linetest`
crate (src/src/lib.rs, src/src/latency.rs, src/src/throughput.rs) into
Lean, together with theorems checking the natural-language specification
against that embedding.

Modelling conventions:
- `std::time::Duration` and `std::time::SystemTime` are modelled as natural
  numbers of nanoseconds (`Duration` is a nanosecond count; `SystemTime` is
  nanoseconds since the epoch).  Rust `Duration` addition is `Nat` addition
  and `Duration / u32` is `Nat` floor division at nanosecond precision,
  which is exactly what the Rust implementation computes; the Rust division
  panics when the divisor is zero, which is modelled by returning `none`.
- `f32` arithmetic is modelled exactly over `ℚ` in the evaluation and
  scheduler layers, whose claims do not turn on non-finite values; the
  payload values of those claims are small integers on which `f32`
  arithmetic is exact.  An `f32` division `0.0 / 0.0` yields `NaN`;
  wherever the Rust code can produce a `NaN` this way those layers return
  `none` and the accompanying doc comment says so.  The persistence layer
  instead distinguishes non-finite `f32` payloads explicitly (`F32`),
  because serde_json serializes NaN and the infinities as `null`.
- The `usize -> u32` cast in `mean_latency` truncates; it is modelled as
  `% 2 ^ 32`.
- Fallible Rust functions return `Except`/`Option`.
-/

namespace Linetest


/-- Rust `std::time::Duration`, as a count of nanoseconds. -/
abbrev Duration := Nat

/-- Rust `std::time::SystemTime`, as nanoseconds since the Unix epoch. -/
abbrev SystemTime := Nat

/-- The enum `Datapoint` (src/src/lib.rs:287-291): a tagged measurement with
an optional value and a timestamp.  The `f32` throughput payloads are
modelled as `ℚ` — the finite fragment, which serves the evaluation and
scheduler claims; the persistence layer, which must distinguish
non-finite payloads, uses `DatapointF` below for the same enum. -/
inductive Datapoint where
  | Latency (value : Option Duration) (t : SystemTime)
  | ThroughputUp (value : Option ℚ) (t : SystemTime)
  | ThroughputDown (value : Option ℚ) (t : SystemTime)
  deriving DecidableEq

/-- `MeasurementResult` (src/src/lib.rs:20): a `Vec` of datapoints. -/
abbrev MeasurementResult := List Datapoint

/-- `Evaluation::mean_dl` (src/src/lib.rs:64-77).  `count` is the number of
`ThroughputDown` entries (with or without a value); the fold adds
`dn.unwrap_or_default()`, so a `None` value contributes `0.0`.  The final
`f32` division `sum / count` is `NaN` exactly when `count = 0` (then the
sum is necessarily `0.0`), modelled as `none`. -/
def mean_dl (m : MeasurementResult) : Option ℚ :=
  let count := (m.filter fun e => match e with
    | .ThroughputDown _ _ => true
    | _ => false).length
  let sum := m.foldl (fun acc e => match e with
    | .ThroughputDown dn _ => acc + dn.getD 0
    | _ => acc) 0
  if count = 0 then none else some (sum / (count : ℚ))

/-- The values of the `ThroughputDown` entries of a measurement, `None`
entries included, in order. -/
def dl_entries (m : MeasurementResult) : List (Option ℚ) :=
  m.filterMap fun e => match e with
    | .ThroughputDown v _ => some v
    | _ => none

/-- Written from the spec's words for comparison with `mean_dl` (claim C4):
the arithmetic mean of all non-`None` `ThroughputDown` values, dividing
by the count of those non-`None` entries; `NaN` (here `none`) when there
are no such entries. -/
def mean_dl_spec (m : MeasurementResult) : Option ℚ :=
  let vals := m.filterMap fun e => match e with
    | .ThroughputDown (some v) _ => some v
    | _ => none
  if vals = [] then none else some (vals.sum / (vals.length : ℚ))

/-- `Evaluation::mean_latency` (src/src/lib.rs:79-99).  Both the count and
the fold range over the `Latency` entries whose value `is_some`; the fold
then divides the summed `Duration` by `count as u32`.  The truncating
`usize -> u32` cast is `% 2 ^ 32`; the Rust `Duration` division panics when
the divisor is zero, modelled as `none`. -/
def mean_latency (m : MeasurementResult) : Option Duration :=
  let count := (m.filter fun e => match e with
    | .Latency d _ => d.isSome
    | _ => false).length
  let sum := (m.filter fun e => match e with
    | .Latency d _ => d.isSome
    | _ => false).foldl (fun acc e => match e with
      | .Latency l _ => acc + l.getD 0
      | _ => acc) 0
  if count % 2 ^ 32 = 0 then none else some (sum / (count % 2 ^ 32))

/-- The values of the non-`None` `Latency` entries of a measurement, in
order. -/
def latency_values (m : MeasurementResult) : List Duration :=
  m.filterMap fun e => match e with
    | .Latency (some d) _ => some d
    | _ => none

/-- `Evaluation::timeouts` (src/src/lib.rs:101-108): the number of `Latency`
entries whose value is `None`. -/
def timeouts (m : MeasurementResult) : Nat :=
  (m.filter fun e => match e with
    | .Latency l _ => l.isNone
    | _ => false).length

/-- `Evaluation::timeouts_for_session` (src/src/lib.rs:110-112):
`timeouts() as f32 / len() as f32`.  On an empty measurement this is the
`f32` division `0.0 / 0.0 = NaN`, modelled as `none`. -/
def timeouts_for_session (m : MeasurementResult) : Option ℚ :=
  if m.length = 0 then none else some ((timeouts m : ℚ) / (m.length : ℚ))

/-- A model of the JSON documents produced and consumed by `serde_json`
in `Evaluation::save` / `Evaluation::load`. -/
inductive Json where
  | null
  | num (q : ℚ)
  | str (s : String)
  | arr (xs : List Json)
  | obj (fields : List (String × Json))

/-- Reading a JSON number back as an unsigned integer field, as serde does
for the `u64`/`u32` fields of `Duration` and `SystemTime` (non-integral or
negative numbers are rejected). -/
def decodeNat (j : Json) : Option Nat :=
  match j with
  | .num q => if 0 ≤ q.num ∧ q.den = 1 then some q.num.toNat else none
  | _ => none

/-- serde encoding of `std::time::Duration`: an object with the fields
`secs` and `nanos`. -/
def encodeDuration (d : Duration) : Json :=
  .obj [("secs", .num ((d / 1000000000 : ℕ) : ℚ)),
        ("nanos", .num ((d % 1000000000 : ℕ) : ℚ))]

/-- serde decoding of `std::time::Duration` from the canonical serializer
output. -/
def decodeDuration (j : Json) : Option Duration :=
  match j with
  | .obj [("secs", js), ("nanos", jn)] =>
    match decodeNat js, decodeNat jn with
    | some s, some n => some (s * 1000000000 + n)
    | _, _ => none
  | _ => none

/-- serde encoding of `std::time::SystemTime`: an object with the fields
`secs_since_epoch` and `nanos_since_epoch`. -/
def encodeTime (t : SystemTime) : Json :=
  .obj [("secs_since_epoch", .num ((t / 1000000000 : ℕ) : ℚ)),
        ("nanos_since_epoch", .num ((t % 1000000000 : ℕ) : ℚ))]

/-- serde decoding of `std::time::SystemTime` from the canonical
serializer output. -/
def decodeTime (j : Json) : Option SystemTime :=
  match j with
  | .obj [("secs_since_epoch", js), ("nanos_since_epoch", jn)] =>
    match decodeNat js, decodeNat jn with
    | some s, some n => some (s * 1000000000 + n)
    | _, _ => none
  | _ => none

/-- serde encoding of `Option<Duration>`: `null` or the duration object. -/
def encodeOptDuration (v : Option Duration) : Json :=
  match v with
  | none => .null
  | some d => encodeDuration d

/-- serde decoding of `Option<Duration>`. -/
def decodeOptDuration (j : Json) : Option (Option Duration) :=
  match j with
  | .null => some none
  | _ => (decodeDuration j).map some

/-- An `f32` value as the serializer must distinguish them: a finite
value (modelled exactly as `ℚ`, since a finite `f32` round-trips exactly
through serde_json's shortest-representation printing) or one of the
non-finite values NaN, +infinity, -infinity.  Non-finite payloads are
reachable in the program: `to_mbits` divides by the elapsed seconds
unconditionally, yielding NaN or infinity at a zero elapsed time. -/
inductive F32 where
  | finite (q : ℚ)
  | nan
  | inf
  | negInf
  deriving DecidableEq

/-- The enum `Datapoint` (src/src/lib.rs:287-291) as the persistence
layer sees it: the `f32` payloads carry full `F32` values, because
serde_json treats finite and non-finite values differently.  `Datapoint`
above is the finite-payload idealization of the same enum. -/
inductive DatapointF where
  | Latency (value : Option Duration) (t : SystemTime)
  | ThroughputUp (value : Option F32) (t : SystemTime)
  | ThroughputDown (value : Option F32) (t : SystemTime)
  deriving DecidableEq

/-- An optional `f32` payload that is absent or finite. -/
def optFinite : Option F32 → Bool
  | none => true
  | some (.finite _) => true
  | some _ => false

/-- A datapoint whose `f32` payload, if it has one, is finite. -/
def DatapointF.finitePayload : DatapointF → Bool
  | .Latency _ _ => true
  | .ThroughputUp v _ => optFinite v
  | .ThroughputDown v _ => optFinite v

/-- serde encoding of `Option<f32>`: `null` for `None`; for `Some(v)`,
serde_json's `serialize_f32` writes the number when `v` is finite and
writes `null` when `v` is NaN or an infinity. -/
def encodeOptNum (v : Option F32) : Json :=
  match v with
  | none => .null
  | some (.finite q) => .num q
  | some .nan => .null
  | some .inf => .null
  | some .negInf => .null

/-- serde decoding of `Option<f32>`: `null` reads back as `None` — also
when it was written for a non-finite value. -/
def decodeOptNum (j : Json) : Option (Option F32) :=
  match j with
  | .null => some none
  | .num q => some (some (.finite q))
  | _ => none

/-- serde encoding of the derived `Serialize` for `Datapoint`
(src/src/lib.rs:286-291): an externally tagged enum whose two-field tuple
variants become two-element arrays. -/
def encodeDatapoint (dp : DatapointF) : Json :=
  match dp with
  | .Latency v t => .obj [("Latency", .arr [encodeOptDuration v, encodeTime t])]
  | .ThroughputUp v t => .obj [("ThroughputUp", .arr [encodeOptNum v, encodeTime t])]
  | .ThroughputDown v t => .obj [("ThroughputDown", .arr [encodeOptNum v, encodeTime t])]

/-- serde decoding of the derived `Deserialize` for `Datapoint` from the
canonical serializer output. -/
def decodeDatapoint (j : Json) : Option DatapointF :=
  match j with
  | .obj [("Latency", .arr [v, t])] =>
    match decodeOptDuration v, decodeTime t with
    | some val, some ts => some (.Latency val ts)
    | _, _ => none
  | .obj [("ThroughputUp", .arr [v, t])] =>
    match decodeOptNum v, decodeTime t with
    | some val, some ts => some (.ThroughputUp val ts)
    | _, _ => none
  | .obj [("ThroughputDown", .arr [v, t])] =>
    match decodeOptNum v, decodeTime t with
    | some val, some ts => some (.ThroughputDown val ts)
    | _, _ => none
  | _ => none

/-- serde decoding of a JSON array of datapoints, element by element; any
failing element fails the whole load, as serde does. -/
def decode_list : List Json → Option (List DatapointF)
  | [] => some []
  | j :: rest =>
    match decodeDatapoint j, decode_list rest with
    | some d, some ds => some (d :: ds)
    | _, _ => none

/-- `Evaluation::save` (src/src/lib.rs:114-124): serializes the full
in-memory sequence — whose `f32` payloads can be any `f32` value,
non-finite included, hence `DatapointF` — as one JSON array via
`serde_json::to_writer`.  The file system is abstracted away: `save`
returns the JSON document written to the file (directory creation and
I/O errors are out of scope). -/
def save (m : List DatapointF) : Json :=
  .arr (m.map encodeDatapoint)

/-- `Evaluation::load` (src/src/lib.rs:126-129): deserializes a JSON
document into a sequence, replacing the previous one; `none` models a
serde parse error. -/
def load (j : Json) : Option (List DatapointF) :=
  match j with
  | .arr xs => decode_list xs
  | _ => none

/-- Byte counts (`type Bytes = usize` in src/src/throughput.rs:8). -/
abbrev Bytes := Nat

/-- `type DownloadResult = (Duration, Bytes)` (src/src/throughput.rs:10). -/
abbrev DownloadResult := Duration × Bytes

/-- `to_mbits` (src/src/throughput.rs:12-19): `(bytes * 8 / 1000 / 1000) /
duration.as_secs_f32()`, over `ℚ` instead of `f32`.  `as_secs_f32` of a
nanosecond count is division by `10 ^ 9`.  The `f32` division is performed
unconditionally; when the duration is zero it is a division by zero
producing `NaN` (for zero bytes) or `inf`, modelled here by the rational
junk value `x / 0 = 0`.  No theorem below depends on the value at a zero
duration. -/
def to_mbits (dr : DownloadResult) : ℚ :=
  let mbit : ℚ := ((dr.2 : ℚ) * 8) / 1000 / 1000
  mbit / ((dr.1 : ℚ) / 1000000000)

/-- One concurrent fetch attempt inside `combined_download`
(one `measured_download` call, src/src/throughput.rs:22-33): the wall time
until the attempt resolves and either the byte count of the fully read
body or an error. -/
structure FetchOutcome where
  time : Duration
  result : Except Unit Bytes

/-- `combined_download` (src/src/throughput.rs:36-59).  All URLs are
fetched concurrently (rayon `par_iter`) and joined by `collect`; the
clock read `t.elapsed()` taken after the join is modelled as the time at
which the slowest attempt (successful or not) resolves.  The fold adds
the bytes of the `Ok` results into the second component of the
accumulator and ignores errors; the duration component of the accumulator
is never updated (that code is commented out in the source).  The only
`Err` path in the source is a failing clock read (`t.elapsed()?`), which
is not modelled: the model always returns `Ok`. -/
def combined_download (fetches : List FetchOutcome) : Except Unit DownloadResult :=
  let completion_time := (fetches.map FetchOutcome.time).foldl max 0
  let res := fetches.foldl (fun acc f => match f.result with
    | .ok b => (acc.1, acc.2 + b)
    | .error _ => acc) ((0 : Duration), (0 : Bytes))
  .ok (completion_time, res.2)

/-- `MeasurementBuilder` (src/src/lib.rs:154-164).  Note that the struct
has exactly these four fields: there is no total-run duration field of any
kind.  `PathBuf` is modelled as `String`. -/
structure MeasurementBuilder where
  ping_ips : List String
  downloads_urls : List String
  ping_delay : Duration
  logfile : Option String

/-- The ping-target expression appearing verbatim in both
`MeasurementBuilder::run` (src/src/lib.rs:193-197) and
`MeasurementBuilder::run_periodic` (src/src/lib.rs:230-234):
`self.ping_ips.get(0).unwrap_or(&"8.8.8.8".to_string()).clone()`. -/
def run_ping_target (b : MeasurementBuilder) : String :=
  (b.ping_ips.get? 0).getD "8.8.8.8"

/-- What the `pinger::ping(addr)` call of one `ping_callback` invocation
produces: a first stream message (`Pong`, `Timeout` or an ignored
`Unknown` line), an empty stream, or a construction error. -/
inductive PingMsg where
  | pong (d : Duration)
  | timeout
  | unknown
  | streamEnd
  | initFail
  deriving DecidableEq

/-- `ping_callback` (src/src/latency.rs:6-19).  `ping(addr)?` propagates a
construction error; otherwise only the FIRST stream message is examined
(the `for` body returns unconditionally after it): a `Pong` invokes the
callback with `Some(duration)`, a `Timeout` with `None`, and an `Unknown`
line — like an empty stream — invokes it not at all.  The returned value
is `ok (some r)` when the callback was invoked with `r`, `ok none` when
it was not invoked. -/
def ping_callback (msg : PingMsg) : Except Unit (Option (Option Duration)) :=
  match msg with
  | .initFail => .error ()
  | .pong d => .ok (some (some d))
  | .timeout => .ok (some none)
  | .unknown => .ok none
  | .streamEnd => .ok none

/-- The external world one scheduler run interacts with: the outcome of
the n-th latency probe against a given target, whether the n-th channel
send succeeds (false once the consumer has dropped the `Receiver`), and
the per-URL fetch outcomes of the n-th throughput batch. -/
structure Env where
  ping : String → Nat → PingMsg
  sendOk : Nat → Bool
  fetches : Nat → List FetchOutcome

/-- Observable events of the background thread, in order: a latency probe
attempt, a throughput download batch, a successful publish, a failed
publish. -/
inductive Event where
  | probe
  | download
  | sent
  | sendFail
  deriving DecidableEq

/-- The state of the spawned measurement thread
(src/src/lib.rs:239-278), with instrumentation: `time` is the running
wall clock, `pingCount`/`dlCount`/`sendCount` count probe attempts,
download batches and send attempts, `published` are the successfully sent
datapoints, `targets` logs the address given to every probe, `trace` logs
the events in order, `stop` is the loop's `stop` flag and `panicked`
records that the `expect` on `ping_callback` fired. -/
structure ThreadState where
  time : Nat
  pingCount : Nat
  dlCount : Nat
  sendCount : Nat
  published : List Datapoint
  targets : List String
  trace : List Event
  stop : Bool
  panicked : Bool

/-- The thread state at spawn time, `t0` being the wall clock at run
start. -/
def initState (t0 : Nat) : ThreadState :=
  { time := t0, pingCount := 0, dlCount := 0, sendCount := 0,
    published := [], targets := [], trace := [], stop := false, panicked := false }

/-- The arguments moved into the spawned closure of `run_periodic`
(src/src/lib.rs:229-237): the cloned ping delay, resolved ping target and
cloned download URL list. -/
structure Spawned where
  ping_ip : String
  ping_delay : Duration
  download_urls : List String

/-- `let latency_download_ratio = 10` (src/src/lib.rs:225): how many
latency probes to perform before each download test. -/
def latency_download_quota : Nat := 10

/-- `MeasurementBuilder::run_periodic` (src/src/lib.rs:223-281), the
synchronous part.  It creates a channel, clones the configuration into a
`Spawned` record, spawns the background thread (which then behaves as
`runLoop`) and returns `Ok(receiver)`.  No operation on this path can
fail, so the result is unconditionally `ok` — in particular it does not
depend on whether the platform can ping. -/
def run_periodic (b : MeasurementBuilder) : Except Unit Spawned :=
  .ok { ping_ip := run_ping_target b,
        ping_delay := b.ping_delay,
        download_urls := b.downloads_urls }

/-- One `send` on the channel inside the thread
(`stop = sender.send(dp).is_err()`): on success the datapoint reaches the
stream, on failure (receiver dropped) the `stop` flag is set. -/
def sendDp (env : Env) (dp : Datapoint) (st : ThreadState) : ThreadState :=
  if env.sendOk st.sendCount then
    { st with sendCount := st.sendCount + 1,
              published := st.published ++ [dp],
              trace := st.trace ++ [Event.sent] }
  else
    { st with sendCount := st.sendCount + 1,
              trace := st.trace ++ [Event.sendFail],
              stop := true }

/-- One `latency::ping_callback(&ping_ip, ..).expect("Ping failed on this
system")` call inside the thread loop (src/src/lib.rs:250-260): the probe
is attempted; a construction error fires the `expect` (modelled by
`panicked`); otherwise, if the callback runs, the latency datapoint —
timestamped with the current time — is sent. -/
def pingOnce (env : Env) (ip : String) (st : ThreadState) : ThreadState :=
  let st1 := { st with pingCount := st.pingCount + 1,
                       targets := st.targets ++ [ip],
                       trace := st.trace ++ [Event.probe] }
  match ping_callback (env.ping ip st.pingCount) with
  | .error _ => { st1 with panicked := true }
  | .ok none => st1
  | .ok (some r) => sendDp env (Datapoint.Latency r st1.time) st1

/-- One iteration of `for _ in 0..latency_download_ratio`
(src/src/lib.rs:246-263): break if `stop` is already set; otherwise probe
once and then `sleep(ping_delay)` (the sleep runs even when the probe's
send just failed; it does not run when the `expect` panicked). -/
def pingIter (env : Env) (b : Spawned) (st : ThreadState) : ThreadState :=
  if st.panicked then st
  else if st.stop then st
  else
    let st1 := pingOnce env b.ping_ip st
    if st1.panicked then st1
    else { st1 with time := st1.time + b.ping_delay }

/-- The whole `for _ in 0..n` latency phase. -/
def pingPhase (env : Env) (b : Spawned) : Nat → ThreadState → ThreadState
  | 0, st => st
  | n + 1, st => pingPhase env b n (pingIter env b st)

/-- The throughput part of one loop cycle (src/src/lib.rs:269-275):
`combined_download(&download_urls).ok().map(to_mbits)`, advancing the
clock by the batch's elapsed time, then sending the `ThroughputDown`
datapoint timestamped with the current time. -/
def downloadOnce (env : Env) (st : ThreadState) : ThreadState :=
  let dl := combined_download (env.fetches st.dlCount)
  let download_result := dl.toOption.map to_mbits
  let elapsed := match dl with
    | .ok r => r.1
    | .error _ => 0
  let st1 := { st with dlCount := st.dlCount + 1,
                       time := st.time + elapsed,
                       trace := st.trace ++ [Event.download] }
  sendDp env (Datapoint.ThroughputDown download_result st1.time) st1

/-- One iteration of the spawned thread's `loop` (src/src/lib.rs:241-276):
break if stopped, run the latency phase, break if stopped, then run one
download batch and send it.  A panicked state is frozen (the thread is
dead). -/
def cycle (env : Env) (b : Spawned) (st : ThreadState) : ThreadState :=
  if st.panicked then st
  else if st.stop then st
  else
    let st1 := pingPhase env b latency_download_quota st
    if st1.panicked then st1
    else if st1.stop then st1
    else downloadOnce env st1

/-- The spawned thread's `loop`, run for `fuel` iterations.  The Rust loop
has no iteration bound; every theorem below holds for every `fuel`. -/
def runLoop (env : Env) (b : Spawned) : Nat → ThreadState → ThreadState
  | 0, st => st
  | n + 1, st => runLoop env b n (cycle env b st)

/-- `MeasurementBuilder::run` (src/src/lib.rs:190-213), the one-shot
measurement: one `ping_callback` against `run_ping_target` — whose
construction error is propagated with `?` — pushing a latency datapoint
if the callback runs, followed by one download batch pushed as a
`ThroughputDown` datapoint.  `t0` is the wall clock at the start; the
latency probe is instantaneous in the model and the download advances the
clock by its elapsed time. -/
def run (b : MeasurementBuilder) (env : Env) (t0 : Nat) :
    Except Unit MeasurementResult :=
  match ping_callback (env.ping (run_ping_target b) 0) with
  | .error e => .error e
  | .ok cb =>
    let result : MeasurementResult := match cb with
      | some r => [Datapoint.Latency r t0]
      | none => []
    let dl := combined_download (env.fetches 0)
    let mbits := dl.toOption.map to_mbits
    let elapsed := match dl with
      | .ok r => r.1
      | .error _ => 0
    .ok (result ++ [Datapoint.ThroughputDown mbits (t0 + elapsed)])

/-- The trace invariant behind claim C9: once stopped, the failed publish
is the very last recorded event; while running, no failed publish has
ever been recorded. -/
def TraceInv (st : ThreadState) : Prop :=
  (st.stop = true → ∃ pre, st.trace = pre ++ [Event.sendFail])
  ∧ (st.stop = false → Event.sendFail ∉ st.trace)

/-- The environment of a run on which every channel send succeeds (a live
consumer), every latency probe immediately answers with a zero round trip
and every download batch has no URLs to fetch. -/
def env_live : Env :=
  { ping := fun _ _ => .pong 0, sendOk := fun _ => true, fetches := fun _ => [] }

/-- A spawned-loop configuration with a probe interval of one time unit
and no download URLs. -/
def spawn_delay1 : Spawned :=
  { ping_ip := "8.8.8.8", ping_delay := 1, download_urls := [] }

/-- The environment of a platform on which the ping stream can never be
constructed. -/
def env_noping : Env :=
  { ping := fun _ _ => .initFail, sendOk := fun _ => true, fetches := fun _ => [] }

/-- A builder with one ping target, no download URLs and a zero ping
delay. -/
def builder_plain : MeasurementBuilder :=
  { ping_ips := ["8.8.8.8"], downloads_urls := [], ping_delay := 0, logfile := none }

/-- The spawned-loop configuration `run_periodic` produces from
`builder_plain`. -/
def spawn_plain : Spawned :=
  { ping_ip := "8.8.8.8", ping_delay := 0, download_urls := [] }

/-- The environment of a consumer that reads exactly three datapoints and
then drops the receiver: the first three sends succeed, every later send
fails. -/
def env_drop3 : Env :=
  { ping := fun _ _ => .pong 0, sendOk := fun n => decide (n < 3), fetches := fun _ => [] }

/-- A builder whose ping-target list is empty. -/
def builder_noip : MeasurementBuilder :=
  { ping_ips := [], downloads_urls := [], ping_delay := 0, logfile := none }

theorem dl_count_eq (m : MeasurementResult) :
    (m.filter fun e => match e with
      | .ThroughputDown _ _ => true
      | _ => false).length = (dl_entries m).length := by
  induction m with
  | nil => rfl
  | cons e rest ih =>
    cases e <;> simpa [dl_entries, List.filter_cons, List.filterMap_cons] using ih

theorem dl_fold_eq (m : MeasurementResult) (acc : ℚ) :
    m.foldl (fun acc e => match e with
      | .ThroughputDown dn _ => acc + dn.getD 0
      | _ => acc) acc
      = acc + ((dl_entries m).map (fun v => v.getD 0)).sum := by
  induction m generalizing acc with
  | nil => simp [dl_entries]
  | cons e rest ih =>
    cases e with
    | ThroughputDown dn t =>
      simp [dl_entries, List.filterMap_cons, ih, add_assoc]
    | Latency v t =>
      simpa [dl_entries, List.filterMap_cons] using ih acc
    | ThroughputUp v t =>
      simpa [dl_entries, List.filterMap_cons] using ih acc

theorem lat_filter_length (m : MeasurementResult) :
    (m.filter fun e => match e with
      | .Latency d _ => d.isSome
      | _ => false).length = (latency_values m).length := by
  induction m with
  | nil => rfl
  | cons e rest ih =>
    cases e with
    | Latency d t =>
      cases d <;> simpa [latency_values, List.filter_cons, List.filterMap_cons] using ih
    | ThroughputUp v t =>
      simpa [latency_values, List.filter_cons, List.filterMap_cons] using ih
    | ThroughputDown v t =>
      simpa [latency_values, List.filter_cons, List.filterMap_cons] using ih

theorem lat_filter_fold_eq (m : MeasurementResult) (acc : Duration) :
    ((m.filter fun e => match e with
      | .Latency d _ => d.isSome
      | _ => false).foldl (fun acc e => match e with
        | .Latency l _ => acc + l.getD 0
        | _ => acc) acc)
      = acc + (latency_values m).sum := by
  induction m generalizing acc with
  | nil => simp [latency_values]
  | cons e rest ih =>
    cases e with
    | Latency d t =>
      cases d with
      | none => simpa [latency_values, List.filter_cons, List.filterMap_cons] using ih acc
      | some v =>
        simp [latency_values, List.filter_cons, List.filterMap_cons, ih, Nat.add_assoc]
    | ThroughputUp v t =>
      simpa [latency_values, List.filter_cons, List.filterMap_cons] using ih acc
    | ThroughputDown v t =>
      simpa [latency_values, List.filter_cons, List.filterMap_cons] using ih acc

/-- C4 counterexample.  On the measurement
`[ThroughputDown(None), ThroughputDown(Some 2.0)]` the code computes
`(0 + 2) / 2 = 1` — it divides by the count of ALL `ThroughputDown`
entries, counting the `None` entry as `0.0` — while the claim (mean of the
non-`None` values, divided by their count) demands `2 / 1 = 2`. -/
theorem mean_dl_counterexample :
    mean_dl [Datapoint.ThroughputDown none 0, Datapoint.ThroughputDown (some 2) 1] = some 1
    ∧ mean_dl_spec [Datapoint.ThroughputDown none 0, Datapoint.ThroughputDown (some 2) 1]
        = some 2 := by
  constructor
  · norm_num [mean_dl, List.filter, List.foldl]
  · norm_num [mean_dl_spec, List.filterMap]

/-- C4 (amended): `mean_dl` sums the values of ALL `ThroughputDown` entries
with `None` counted as `0.0` and divides by the count of all
`ThroughputDown` entries (`None` ones included); the result is `NaN`
(modelled `none`) exactly when the measurement contains no
`ThroughputDown` entry at all. -/
theorem mean_dl_amended (m : MeasurementResult) :
    (dl_entries m ≠ [] →
      mean_dl m = some (((dl_entries m).map (fun v => v.getD 0)).sum
        / ((dl_entries m).length : ℚ)))
    ∧ (dl_entries m = [] → mean_dl m = none) := by
  constructor
  · intro h
    have hlen : (dl_entries m).length ≠ 0 := by
      simpa [List.length_eq_zero] using h
    simp [mean_dl, dl_count_eq, dl_fold_eq, hlen]
  · intro h
    simp [mean_dl, dl_count_eq, h]

/-- Witness for `mean_dl_amended` at a one-entry measurement. -/
theorem mean_dl_amended_witness :
    dl_entries [Datapoint.ThroughputDown (some 2) 0] ≠ []
    ∧ mean_dl [Datapoint.ThroughputDown (some 2) 0]
        = some (((dl_entries [Datapoint.ThroughputDown (some 2) 0]).map
            (fun v => v.getD 0)).sum
          / ((dl_entries [Datapoint.ThroughputDown (some 2) 0]).length : ℚ)) :=
  ⟨by simp [dl_entries], (mean_dl_amended _).1 (by simp [dl_entries])⟩

/-- C5 counterexample.  On a measurement containing only a timed-out
latency probe, `mean_latency` divides the zero `Duration` by the count
`0`, and the Rust `Duration` division by zero panics — the operation
crashes, contrary to the claim that it does not.  The panic is modelled
by the `none` result. -/
theorem mean_latency_counterexample :
    mean_latency [Datapoint.Latency none 0] = none := by decide

/-- C5 (amended): `mean_latency` is the arithmetic mean of all non-`None`
latency values — timeouts are excluded from both numerator and
denominator — whenever at least one such value exists (and their count
does not overflow `u32`); on a measurement containing only timeouts the
`Duration` division by zero panics (modelled `none`): the operation
crashes rather than returning `NaN` or a silent zero. -/
theorem mean_latency_amended (m : MeasurementResult) :
    (latency_values m ≠ [] → (latency_values m).length < 2 ^ 32 →
      mean_latency m = some ((latency_values m).sum / (latency_values m).length))
    ∧ (latency_values m = [] → mean_latency m = none) := by
  constructor
  · intro h hlt
    have hlen : (latency_values m).length ≠ 0 := by
      simpa [List.length_eq_zero] using h
    have hlt2 : (latency_values m).length < 4294967296 := by
      norm_num at hlt
      exact hlt
    have hmod : (latency_values m).length % 4294967296 = (latency_values m).length :=
      Nat.mod_eq_of_lt hlt2
    simp [mean_latency, lat_filter_length, lat_filter_fold_eq, hmod, hlen]
  · intro h
    simp [mean_latency, lat_filter_length, h]

/-- Witness for `mean_latency_amended` at a two-entry measurement
containing one timeout: the mean of the single successful probe is its
own value. -/
theorem mean_latency_amended_witness :
    latency_values [Datapoint.Latency (some 4) 0, Datapoint.Latency none 1] ≠ []
    ∧ (latency_values [Datapoint.Latency (some 4) 0, Datapoint.Latency none 1]).length < 2 ^ 32
    ∧ mean_latency [Datapoint.Latency (some 4) 0, Datapoint.Latency none 1]
        = some ((latency_values [Datapoint.Latency (some 4) 0, Datapoint.Latency none 1]).sum
          / (latency_values [Datapoint.Latency (some 4) 0, Datapoint.Latency none 1]).length) :=
  ⟨by decide, by decide,
    (mean_latency_amended _).1 (by decide) (by decide)⟩

/-- C6 counterexample.  On the empty measurement `timeouts_for_session`
computes the `f32` division `0.0 / 0.0 = NaN` (modelled `none`), which
does not lie in the interval `[0, 1]`, so the ratio bound fails for the
empty sequence. -/
theorem timeouts_ratio_counterexample :
    timeouts_for_session [] = none := rfl

/-- C6 (amended): for every measurement the timeout count is at most the
number of entries, and for every NON-EMPTY measurement the timeout ratio
is a defined rational in `[0, 1]`; the empty measurement instead yields
`NaN` (modelled `none`). -/
theorem timeouts_ratio_amended (m : MeasurementResult) :
    timeouts m ≤ m.length
    ∧ (m ≠ [] →
        timeouts_for_session m = some ((timeouts m : ℚ) / (m.length : ℚ))
        ∧ 0 ≤ (timeouts m : ℚ) / (m.length : ℚ)
        ∧ (timeouts m : ℚ) / (m.length : ℚ) ≤ 1) := by
  have hle : timeouts m ≤ m.length := List.length_filter_le _ m
  refine ⟨hle, fun h => ?_⟩
  have hlen : m.length ≠ 0 := by
    simpa [List.length_eq_zero] using h
  have hpos : (0 : ℚ) < (m.length : ℚ) := by
    exact_mod_cast Nat.pos_of_ne_zero hlen
  refine ⟨by simp [timeouts_for_session, hlen], by positivity, ?_⟩
  exact (div_le_one hpos).mpr (by exact_mod_cast hle)

/-- Witness for `timeouts_ratio_amended` at a one-entry measurement whose
single latency probe timed out: the ratio is defined and lies in
`[0, 1]`. -/
theorem timeouts_ratio_amended_witness :
    timeouts [Datapoint.Latency none 0] ≤ ([Datapoint.Latency none 0] : MeasurementResult).length
    ∧ (timeouts_for_session [Datapoint.Latency none 0]
        = some ((timeouts [Datapoint.Latency none 0] : ℚ)
          / (([Datapoint.Latency none 0] : MeasurementResult).length : ℚ))
      ∧ 0 ≤ (timeouts [Datapoint.Latency none 0] : ℚ)
          / (([Datapoint.Latency none 0] : MeasurementResult).length : ℚ)
      ∧ (timeouts [Datapoint.Latency none 0] : ℚ)
          / (([Datapoint.Latency none 0] : MeasurementResult).length : ℚ) ≤ 1) :=
  ⟨(timeouts_ratio_amended _).1,
    (timeouts_ratio_amended [Datapoint.Latency none 0]).2 (by simp)⟩

theorem decodeNat_encode (n : Nat) : decodeNat (.num (n : ℚ)) = some n := by
  simp [decodeNat]

theorem decodeDuration_encode (d : Duration) :
    decodeDuration (encodeDuration d) = some d := by
  simp [encodeDuration, decodeDuration, decodeNat_encode]
  exact Nat.div_add_mod' d 1000000000

theorem decodeTime_encode (t : SystemTime) :
    decodeTime (encodeTime t) = some t := by
  simp [encodeTime, decodeTime, decodeNat_encode]
  exact Nat.div_add_mod' t 1000000000

theorem decodeOptDuration_encode (v : Option Duration) :
    decodeOptDuration (encodeOptDuration v) = some v := by
  cases v with
  | none => rfl
  | some d =>
    show (decodeDuration (encodeDuration d)).map some = some (some d)
    rw [decodeDuration_encode]
    rfl

theorem decodeOptNum_encode (v : Option F32) (h : optFinite v = true) :
    decodeOptNum (encodeOptNum v) = some v := by
  cases v with
  | none => rfl
  | some f =>
    cases f with
    | finite q => rfl
    | nan => simp [optFinite] at h
    | inf => simp [optFinite] at h
    | negInf => simp [optFinite] at h

theorem decodeDatapoint_encode (dp : DatapointF) (h : dp.finitePayload = true) :
    decodeDatapoint (encodeDatapoint dp) = some dp := by
  cases dp with
  | Latency v t =>
    simp [encodeDatapoint, decodeDatapoint, decodeOptDuration_encode, decodeTime_encode]
  | ThroughputUp v t =>
    have hv : optFinite v = true := h
    simp [encodeDatapoint, decodeDatapoint, decodeOptNum_encode v hv, decodeTime_encode]
  | ThroughputDown v t =>
    have hv : optFinite v = true := h
    simp [encodeDatapoint, decodeDatapoint, decodeOptNum_encode v hv, decodeTime_encode]

theorem decode_list_encode (l : List DatapointF)
    (h : ∀ dp ∈ l, dp.finitePayload = true) :
    decode_list (l.map encodeDatapoint) = some l := by
  induction l with
  | nil => rfl
  | cons d rest ih =>
    have hd := h d (List.mem_cons_self d rest)
    have hrest : ∀ dp ∈ rest, dp.finitePayload = true :=
      fun dp hdp => h dp (List.mem_cons_of_mem d hdp)
    simp [decode_list, decodeDatapoint_encode d hd, ih hrest]

/-- C7 counterexample.  serde_json's `serialize_f32` writes `null` for a
non-finite value and `Option<f32>` deserializes `null` as `None`, so the
non-empty sequence `[ThroughputDown(Some(NaN), t)]` — a payload the
program itself can produce, since `to_mbits` yields NaN at a zero
elapsed time — saves and loads back as `[ThroughputDown(None, t)]`,
which is not equal to the original: the round-trip is not
value-preserving on it. -/
theorem save_load_roundtrip_counterexample :
    load (save [DatapointF.ThroughputDown (some F32.nan) 0])
      = some [DatapointF.ThroughputDown none 0]
    ∧ load (save [DatapointF.ThroughputDown (some F32.nan) 0])
      ≠ some [DatapointF.ThroughputDown (some F32.nan) 0] := by
  constructor
  · decide
  · decide

/-- C7 (amended): saving a non-empty sequence whose `f32` payloads are
all finite (or absent) and loading it back yields an equal sequence,
preserving order and every variant tag, optional value and timestamp; a
sequence containing a non-finite payload instead loses that value to
`null` on save, loading back as `None`. -/
theorem save_load_roundtrip (m : List DatapointF) (h1 : m ≠ [])
    (h2 : ∀ dp ∈ m, dp.finitePayload = true) :
    load (save m) = some m := by
  simp [save, load, decode_list_encode m h2]

/-- Witness for `save_load_roundtrip` at a concrete two-entry sequence
with finite payloads. -/
theorem save_load_roundtrip_witness :
    ([DatapointF.Latency (some 5) 7, DatapointF.ThroughputDown (some (F32.finite 3)) 9] : List DatapointF) ≠ []
    ∧ (∀ dp ∈ ([DatapointF.Latency (some 5) 7, DatapointF.ThroughputDown (some (F32.finite 3)) 9] : List DatapointF),
        dp.finitePayload = true)
    ∧ load (save [DatapointF.Latency (some 5) 7, DatapointF.ThroughputDown (some (F32.finite 3)) 9])
        = some [DatapointF.Latency (some 5) 7, DatapointF.ThroughputDown (some (F32.finite 3)) 9] :=
  ⟨by decide, by decide,
    save_load_roundtrip _ (by decide) (by decide)⟩

theorem combined_fold_bytes (fetches : List FetchOutcome) (acc : Duration × Bytes) :
    (fetches.foldl (fun acc f => match f.result with
      | .ok b => (acc.1, acc.2 + b)
      | .error _ => acc) acc).2
      = acc.2 + (fetches.filterMap (fun f => f.result.toOption)).sum := by
  induction fetches generalizing acc with
  | nil => simp
  | cons f rest ih =>
    cases hr : f.result with
    | ok b => simp [List.filterMap_cons, hr, ih, Nat.add_assoc, Except.toOption]
    | error e => simp [List.filterMap_cons, hr, ih, Except.toOption]

theorem foldl_max_ge (l : List Nat) (a : Nat) : a ≤ l.foldl max a := by
  induction l generalizing a with
  | nil => simp
  | cons x rest ih => exact le_trans (Nat.le_max_left a x) (ih (max a x))

theorem foldl_max_mem_le (l : List Nat) (x : Nat) :
    ∀ a, x ∈ l → x ≤ l.foldl max a := by
  induction l with
  | nil =>
    intro a hx
    cases hx
  | cons y rest ih =>
    intro a hx
    rcases List.mem_cons.mp hx with h | h
    · subst h
      exact le_trans (Nat.le_max_right a x) (foldl_max_ge rest (max a x))
    · exact ih (max a y) h

theorem foldl_max_attained (l : List Nat) (a : Nat) :
    l.foldl max a = a ∨ l.foldl max a ∈ l := by
  induction l generalizing a with
  | nil => exact Or.inl rfl
  | cons x rest ih =>
    rcases ih (max a x) with h | h
    · rcases Nat.le_total a x with hax | hxa
      · right
        rw [List.foldl_cons, h, Nat.max_eq_right hax]
        exact List.mem_cons_self _ _
      · left
        rw [List.foldl_cons, h, Nat.max_eq_left hxa]
    · right
      exact List.mem_cons_of_mem _ h

/-- C3 counterexample.  With an empty URL list `combined_download`
returns `Ok((elapsed, 0))`, so the scheduler expression
`combined_download(..).ok().map(to_mbits)` is `Some(..)` — not the `None`
the claim demands; the same happens when every fetch fails (here: two
failing attempts).  `to_mbits` then divides `0.0` by the elapsed seconds
regardless, which for a zero elapsed time is the `f32` division
`0.0 / 0.0 = NaN` — the division by zero the claim says never happens
(it does not panic, `f32` division never does). -/
theorem combined_download_counterexample :
    (combined_download []).toOption.map to_mbits = some 0
    ∧ (combined_download [⟨5, .error ()⟩, ⟨3, .error ()⟩]).toOption.map to_mbits ≠ none := by
  constructor
  · show some (to_mbits (0, 0)) = some 0
    norm_num [to_mbits]
  · simp [combined_download, Except.toOption]

/-- C3 (amended): an empty URL list or a batch in which every fetch fails
does NOT produce a `None` sample: `combined_download` still returns
`Ok((elapsed, 0))` and the scheduler records
`ThroughputDown(Some(rate), now)` where `rate` is the `f32` value
`0.0 / elapsed_secs` (`0` for a positive elapsed time, `NaN` for a zero
one).  Nothing panics; a `None` sample arises only from the unmodelled
failing clock read. -/
theorem combined_download_degenerate (fetches : List FetchOutcome)
    (h : fetches = [] ∨ ∀ f ∈ fetches, f.result.isOk = false) :
    combined_download fetches
      = .ok ((fetches.map FetchOutcome.time).foldl max 0, 0)
    ∧ ((combined_download fetches).toOption.map to_mbits).isSome = true := by
  have hsum : (fetches.filterMap (fun f => f.result.toOption)).sum = 0 := by
    rcases h with h | h
    · subst h
      rfl
    · have : fetches.filterMap (fun f => f.result.toOption) = [] := by
        refine List.filterMap_eq_nil_iff.mpr fun f hf => ?_
        have := h f hf
        cases hr : f.result with
        | ok b => rw [hr] at this; cases this
        | error e => rfl
      simp [this]
  have hbytes := combined_fold_bytes fetches ((0 : Duration), (0 : Bytes))
  constructor
  · simp only [combined_download]
    rw [hbytes]
    simp [hsum]
  · simp [combined_download, Except.toOption]

/-- Witness for `combined_download_degenerate`: an all-failing two-URL
batch. -/
theorem combined_download_degenerate_witness :
    combined_download [⟨5, .error ()⟩, ⟨3, .error ()⟩]
      = .ok ((([⟨5, .error ()⟩, ⟨3, .error ()⟩] : List FetchOutcome).map
          FetchOutcome.time).foldl max 0, 0)
    ∧ ((combined_download [⟨5, .error ()⟩, ⟨3, .error ()⟩]).toOption.map to_mbits).isSome
        = true :=
  combined_download_degenerate [⟨5, .error ()⟩, ⟨3, .error ()⟩]
    (Or.inr (by intro f hf; fin_cases hf <;> rfl))

/-- C8: for a batch in which some fetches fail and some succeed, the byte
count returned by `combined_download` is the sum of the bytes of the
successful fetches only (failures contribute nothing and do not abort the
batch) and the elapsed time is the time at which the slowest of ALL
attempts — failed ones included — resolves: it bounds every attempt's
resolution time and is attained by one of them. -/
theorem combined_download_partial_failure (fetches : List FetchOutcome)
    (hsucc : ∃ f ∈ fetches, f.result.isOk = true)
    (hfail : ∃ f ∈ fetches, f.result.isOk = false) :
    combined_download fetches
      = .ok ((fetches.map FetchOutcome.time).foldl max 0,
          (fetches.filterMap (fun f => f.result.toOption)).sum)
    ∧ (∀ f ∈ fetches, f.time ≤ (fetches.map FetchOutcome.time).foldl max 0)
    ∧ (∃ f ∈ fetches, (fetches.map FetchOutcome.time).foldl max 0 = f.time) := by
  refine ⟨?_, ?_, ?_⟩
  · have hbytes := combined_fold_bytes fetches ((0 : Duration), (0 : Bytes))
    simp only [combined_download]
    rw [hbytes]
    simp
  · intro f hf
    exact foldl_max_mem_le _ f.time 0 (List.mem_map_of_mem FetchOutcome.time hf)
  · rcases foldl_max_attained (fetches.map FetchOutcome.time) 0 with h | h
    · rcases hsucc with ⟨f, hf, _⟩
      refine ⟨f, hf, le_antisymm ?_ ?_⟩
      · rw [h]
        exact Nat.zero_le _
      · exact foldl_max_mem_le _ f.time 0 (List.mem_map_of_mem FetchOutcome.time hf)
    · rcases List.mem_map.mp h with ⟨f, hf, hft⟩
      exact ⟨f, hf, hft.symm⟩

/-- Witness for `combined_download_partial_failure`: the spec's scenario of
three URLs of which one fails (after 9 time units) and two succeed (100
and 200 bytes): total bytes 300, elapsed 9 (the slowest, failed,
attempt). -/
theorem combined_download_partial_failure_witness :
    combined_download [⟨4, .ok 100⟩, ⟨9, .error ()⟩, ⟨2, .ok 200⟩]
      = .ok ((([⟨4, .ok 100⟩, ⟨9, .error ()⟩, ⟨2, .ok 200⟩] : List FetchOutcome).map
          FetchOutcome.time).foldl max 0,
          (([⟨4, .ok 100⟩, ⟨9, .error ()⟩, ⟨2, .ok 200⟩] : List FetchOutcome).filterMap
            (fun f => f.result.toOption)).sum)
    ∧ (∀ f ∈ ([⟨4, .ok 100⟩, ⟨9, .error ()⟩, ⟨2, .ok 200⟩] : List FetchOutcome),
        f.time ≤ (([⟨4, .ok 100⟩, ⟨9, .error ()⟩, ⟨2, .ok 200⟩] : List FetchOutcome).map
          FetchOutcome.time).foldl max 0)
    ∧ (∃ f ∈ ([⟨4, .ok 100⟩, ⟨9, .error ()⟩, ⟨2, .ok 200⟩] : List FetchOutcome),
        (([⟨4, .ok 100⟩, ⟨9, .error ()⟩, ⟨2, .ok 200⟩] : List FetchOutcome).map
          FetchOutcome.time).foldl max 0 = f.time) :=
  combined_download_partial_failure _
    ⟨⟨4, .ok 100⟩, by simp, rfl⟩
    ⟨⟨9, .error ()⟩, by simp, rfl⟩

theorem pingIter_of_panicked (env : Env) (b : Spawned) (st : ThreadState)
    (h : st.panicked = true) : pingIter env b st = st := by
  simp [pingIter, h]

theorem pingIter_of_stop (env : Env) (b : Spawned) (st : ThreadState)
    (h : st.stop = true) : pingIter env b st = st := by
  by_cases hp : st.panicked <;> simp [pingIter, hp, h]

theorem pingPhase_of_panicked (env : Env) (b : Spawned) :
    ∀ n (st : ThreadState), st.panicked = true → pingPhase env b n st = st := by
  intro n
  induction n with
  | zero => intro st h; rfl
  | succ k ih =>
    intro st h
    show pingPhase env b k (pingIter env b st) = st
    rw [pingIter_of_panicked env b st h, ih st h]

theorem pingPhase_of_stop (env : Env) (b : Spawned) :
    ∀ n (st : ThreadState), st.stop = true → pingPhase env b n st = st := by
  intro n
  induction n with
  | zero => intro st h; rfl
  | succ k ih =>
    intro st h
    show pingPhase env b k (pingIter env b st) = st
    rw [pingIter_of_stop env b st h, ih st h]

theorem cycle_of_panicked (env : Env) (b : Spawned) (st : ThreadState)
    (h : st.panicked = true) : cycle env b st = st := by
  simp [cycle, h]

theorem cycle_of_stop (env : Env) (b : Spawned) (st : ThreadState)
    (h : st.stop = true) : cycle env b st = st := by
  by_cases hp : st.panicked <;> simp [cycle, hp, h]

theorem runLoop_of_panicked (env : Env) (b : Spawned) :
    ∀ n (st : ThreadState), st.panicked = true → runLoop env b n st = st := by
  intro n
  induction n with
  | zero => intro st h; rfl
  | succ k ih =>
    intro st h
    show runLoop env b k (cycle env b st) = st
    rw [cycle_of_panicked env b st h, ih st h]

theorem runLoop_of_stop (env : Env) (b : Spawned) :
    ∀ n (st : ThreadState), st.stop = true → runLoop env b n st = st := by
  intro n
  induction n with
  | zero => intro st h; rfl
  | succ k ih =>
    intro st h
    show runLoop env b k (cycle env b st) = st
    rw [cycle_of_stop env b st h, ih st h]

theorem sendDp_traceInv (env : Env) (dp : Datapoint) (st : ThreadState)
    (hstop : st.stop = false) (h : TraceInv st) : TraceInv (sendDp env dp st) := by
  by_cases hs : env.sendOk st.sendCount
  · simp only [sendDp, hs, if_true]
    constructor
    · intro hc
      simp only [hstop] at hc
      cases hc
    · intro _
      have h2 := h.2 hstop
      simp [List.mem_append, h2]
  · simp only [sendDp, hs, if_false]
    constructor
    · intro _
      exact ⟨st.trace, rfl⟩
    · intro hc
      cases hc


theorem pingOnce_traceInv (env : Env) (ip : String) (st : ThreadState)
    (hstop : st.stop = false) (h : TraceInv st) : TraceInv (pingOnce env ip st) := by
  have h1 : TraceInv ({ st with pingCount := st.pingCount + 1, targets := st.targets ++ [ip], trace := st.trace ++ [Event.probe] }) := by
    constructor
    · intro hc
      have hc2 : st.stop = true := hc
      rw [hstop] at hc2
      exact absurd hc2 (by decide)
    · intro _
      show Event.sendFail ∉ st.trace ++ [Event.probe]
      have h2 := h.2 hstop
      simp [List.mem_append, h2]
  simp only [pingOnce]
  split
  · constructor
    · intro hc
      have hc2 : st.stop = true := hc
      rw [hstop] at hc2
      exact absurd hc2 (by decide)
    · intro _
      show Event.sendFail ∉ st.trace ++ [Event.probe]
      have h2 := h.2 hstop
      simp [List.mem_append, h2]
  · exact h1
  · exact sendDp_traceInv env _ _ hstop h1

theorem pingIter_traceInv (env : Env) (b : Spawned) (st : ThreadState)
    (h : TraceInv st) : TraceInv (pingIter env b st) := by
  by_cases hp : st.panicked
  · rw [pingIter_of_panicked env b st hp]
    exact h
  · by_cases hs : st.stop
    · rw [pingIter_of_stop env b st hs]
      exact h
    · have hstop : st.stop = false := by simpa using hs
      have h1 := pingOnce_traceInv env b.ping_ip st hstop h
      simp only [pingIter, hp, hstop]
      simp only [Bool.false_eq_true, if_false]
      by_cases hp1 : (pingOnce env b.ping_ip st).panicked
      · simpa [hp1] using h1
      · simp only [hp1, Bool.false_eq_true, if_false]
        exact ⟨fun hc => h1.1 hc, fun hc => h1.2 hc⟩

theorem pingPhase_traceInv (env : Env) (b : Spawned) :
    ∀ n (st : ThreadState), TraceInv st → TraceInv (pingPhase env b n st) := by
  intro n
  induction n with
  | zero => intro st h; exact h
  | succ k ih =>
    intro st h
    exact ih _ (pingIter_traceInv env b st h)

theorem downloadOnce_traceInv (env : Env) (st : ThreadState)
    (hstop : st.stop = false) (h : TraceInv st) : TraceInv (downloadOnce env st) := by
  have h1 : TraceInv ({ st with dlCount := st.dlCount + 1, time := st.time + (match combined_download (env.fetches st.dlCount) with | .ok r => r.1 | .error _ => 0), trace := st.trace ++ [Event.download] }) := by
    constructor
    · intro hc
      have hc2 : st.stop = true := hc
      rw [hstop] at hc2
      exact absurd hc2 (by decide)
    · intro _
      show Event.sendFail ∉ st.trace ++ [Event.download]
      have h2 := h.2 hstop
      simp [List.mem_append, h2]
  exact sendDp_traceInv env _ _ hstop h1

theorem cycle_traceInv (env : Env) (b : Spawned) (st : ThreadState)
    (h : TraceInv st) : TraceInv (cycle env b st) := by
  by_cases hp : st.panicked
  · rwa [cycle_of_panicked env b st hp]
  · by_cases hs : st.stop
    · rwa [cycle_of_stop env b st hs]
    · have hstop : st.stop = false := by simpa using hs
      have h1 := pingPhase_traceInv env b latency_download_quota st h
      simp only [cycle, hp, hstop]
      simp only [Bool.false_eq_true, if_false]
      by_cases hp1 : (pingPhase env b latency_download_quota st).panicked
      · simpa [hp1] using h1
      · by_cases hs1 : (pingPhase env b latency_download_quota st).stop
        · simpa [hp1, hs1] using h1
        · have hstop1 : (pingPhase env b latency_download_quota st).stop = false := by
            simpa using hs1
          simp only [hp1, hs1, Bool.false_eq_true, if_false]
          exact downloadOnce_traceInv env _ hstop1 h1

theorem runLoop_traceInv (env : Env) (b : Spawned) :
    ∀ n (st : ThreadState), TraceInv st → TraceInv (runLoop env b n st) := by
  intro n
  induction n with
  | zero => intro st h; exact h
  | succ k ih =>
    intro st h
    exact ih _ (cycle_traceInv env b st h)

theorem ping_callback_error_iff (m : PingMsg) (e : Unit)
    (h : ping_callback m = .error e) : m = PingMsg.initFail := by
  cases m <;> first
    | rfl
    | exact absurd h (by simp [ping_callback])

theorem sendDp_live (env : Env) (dp : Datapoint) (st : ThreadState)
    (hsend : ∀ n, env.sendOk n = true)
    (h : st.stop = false ∧ st.panicked = false) :
    (sendDp env dp st).stop = false ∧ (sendDp env dp st).panicked = false := by
  simp only [sendDp, hsend st.sendCount, if_true]
  exact ⟨h.1, h.2⟩

theorem pingOnce_live (env : Env) (ip : String) (st : ThreadState)
    (hsend : ∀ n, env.sendOk n = true)
    (hping : ∀ s n, env.ping s n ≠ PingMsg.initFail)
    (h : st.stop = false ∧ st.panicked = false) :
    (pingOnce env ip st).stop = false ∧ (pingOnce env ip st).panicked = false := by
  cases hm : env.ping ip st.pingCount with
  | initFail => exact absurd hm (hping ip st.pingCount)
  | pong d =>
    simp only [pingOnce, hm, ping_callback]
    exact sendDp_live env _ _ hsend ⟨h.1, h.2⟩
  | timeout =>
    simp only [pingOnce, hm, ping_callback]
    exact sendDp_live env _ _ hsend ⟨h.1, h.2⟩
  | unknown =>
    simp only [pingOnce, hm, ping_callback]
    exact ⟨h.1, h.2⟩
  | streamEnd =>
    simp only [pingOnce, hm, ping_callback]
    exact ⟨h.1, h.2⟩

theorem pingIter_live (env : Env) (b : Spawned) (st : ThreadState)
    (hsend : ∀ n, env.sendOk n = true)
    (hping : ∀ s n, env.ping s n ≠ PingMsg.initFail)
    (h : st.stop = false ∧ st.panicked = false) :
    (pingIter env b st).stop = false ∧ (pingIter env b st).panicked = false := by
  have h1 := pingOnce_live env b.ping_ip st hsend hping h
  simp only [pingIter, h.1, h.2, Bool.false_eq_true, if_false]
  simp only [h1.2, Bool.false_eq_true, if_false]
  exact ⟨h1.1, trivial⟩

theorem pingPhase_live (env : Env) (b : Spawned)
    (hsend : ∀ n, env.sendOk n = true)
    (hping : ∀ s n, env.ping s n ≠ PingMsg.initFail) :
    ∀ n (st : ThreadState), st.stop = false ∧ st.panicked = false →
      (pingPhase env b n st).stop = false ∧ (pingPhase env b n st).panicked = false := by
  intro n
  induction n with
  | zero => intro st h; exact h
  | succ k ih =>
    intro st h
    exact ih _ (pingIter_live env b st hsend hping h)

theorem downloadOnce_live (env : Env) (st : ThreadState)
    (hsend : ∀ n, env.sendOk n = true)
    (h : st.stop = false ∧ st.panicked = false) :
    (downloadOnce env st).stop = false ∧ (downloadOnce env st).panicked = false := by
  simp only [downloadOnce]
  exact sendDp_live env _ _ hsend ⟨h.1, h.2⟩

theorem cycle_live (env : Env) (b : Spawned) (st : ThreadState)
    (hsend : ∀ n, env.sendOk n = true)
    (hping : ∀ s n, env.ping s n ≠ PingMsg.initFail)
    (h : st.stop = false ∧ st.panicked = false) :
    (cycle env b st).stop = false ∧ (cycle env b st).panicked = false := by
  have h1 := pingPhase_live env b hsend hping latency_download_quota st h
  simp only [cycle, h.1, h.2, Bool.false_eq_true, if_false]
  simp only [h1.1, h1.2, Bool.false_eq_true, if_false]
  exact downloadOnce_live env _ hsend h1

theorem runLoop_live (env : Env) (b : Spawned)
    (hsend : ∀ n, env.sendOk n = true)
    (hping : ∀ s n, env.ping s n ≠ PingMsg.initFail) :
    ∀ n (st : ThreadState), st.stop = false ∧ st.panicked = false →
      (runLoop env b n st).stop = false ∧ (runLoop env b n st).panicked = false := by
  intro n
  induction n with
  | zero => intro st h; exact h
  | succ k ih =>
    intro st h
    exact ih _ (cycle_live env b st hsend hping h)

theorem sendDp_targets (env : Env) (dp : Datapoint) (st : ThreadState) :
    (sendDp env dp st).targets = st.targets := by
  by_cases hs : env.sendOk st.sendCount <;> simp [sendDp, hs]

theorem pingOnce_targets (env : Env) (ip : String) (st : ThreadState) :
    (pingOnce env ip st).targets = st.targets ++ [ip] := by
  cases hm : env.ping ip st.pingCount <;>
    simp [pingOnce, hm, ping_callback, sendDp_targets]

theorem pingIter_targets (env : Env) (b : Spawned) (st : ThreadState) (s : String)
    (hs : s ∈ (pingIter env b st).targets) : s ∈ st.targets ∨ s = b.ping_ip := by
  by_cases hp : st.panicked
  · rw [pingIter_of_panicked env b st hp] at hs
    exact Or.inl hs
  · by_cases hstop : st.stop
    · rw [pingIter_of_stop env b st hstop] at hs
      exact Or.inl hs
    · have hstop2 : st.stop = false := by simpa using hstop
      have hp2 : st.panicked = false := by simpa using hp
      have ht : (pingIter env b st).targets = st.targets ++ [b.ping_ip] := by
        simp only [pingIter, hp2, hstop2, Bool.false_eq_true, if_false]
        by_cases hq : (pingOnce env b.ping_ip st).panicked <;>
          simp [hq, pingOnce_targets]
      rw [ht] at hs
      rcases List.mem_append.mp hs with h | h
      · exact Or.inl h
      · right
        simpa using h

theorem pingPhase_targets (env : Env) (b : Spawned) (s : String) :
    ∀ n (st : ThreadState), s ∈ (pingPhase env b n st).targets →
      s ∈ st.targets ∨ s = b.ping_ip := by
  intro n
  induction n with
  | zero => intro st hs; exact Or.inl hs
  | succ k ih =>
    intro st hs
    rcases ih (pingIter env b st) hs with h | h
    · exact pingIter_targets env b st s h
    · exact Or.inr h

theorem downloadOnce_targets (env : Env) (st : ThreadState) :
    (downloadOnce env st).targets = st.targets := by
  simp [downloadOnce, sendDp_targets]

theorem cycle_targets (env : Env) (b : Spawned) (st : ThreadState) (s : String)
    (hs : s ∈ (cycle env b st).targets) : s ∈ st.targets ∨ s = b.ping_ip := by
  by_cases hp : st.panicked
  · rw [cycle_of_panicked env b st hp] at hs
    exact Or.inl hs
  · by_cases hstop : st.stop
    · rw [cycle_of_stop env b st hstop] at hs
      exact Or.inl hs
    · have hstop2 : st.stop = false := by simpa using hstop
      have hp2 : st.panicked = false := by simpa using hp
      simp only [cycle, hp2, hstop2, Bool.false_eq_true, if_false] at hs
      by_cases hq : (pingPhase env b latency_download_quota st).panicked
      · rw [if_pos hq] at hs
        exact pingPhase_targets env b s _ st hs
      · rw [if_neg hq] at hs
        by_cases hr : (pingPhase env b latency_download_quota st).stop
        · rw [if_pos hr] at hs
          exact pingPhase_targets env b s _ st hs
        · rw [if_neg hr, downloadOnce_targets] at hs
          exact pingPhase_targets env b s _ st hs

theorem runLoop_targets (env : Env) (b : Spawned) (s : String) :
    ∀ n (st : ThreadState), s ∈ (runLoop env b n st).targets →
      s ∈ st.targets ∨ s = b.ping_ip := by
  intro n
  induction n with
  | zero => intro st hs; exact Or.inl hs
  | succ k ih =>
    intro st hs
    rcases ih (cycle env b st) hs with h | h
    · exact cycle_targets env b st s h
    · exact Or.inr h

theorem pingPhase_succ (env : Env) (b : Spawned) (n : Nat) (st : ThreadState) :
    pingPhase env b (n + 1) st = pingPhase env b n (pingIter env b st) := rfl

theorem runLoop_succ (env : Env) (b : Spawned) (n : Nat) (st : ThreadState) :
    runLoop env b (n + 1) st = runLoop env b n (cycle env b st) := rfl

theorem cycle_initFail (env : Env) (sp : Spawned) (st : ThreadState)
    (hstop : st.stop = false) (hpan : st.panicked = false)
    (hping : env.ping sp.ping_ip st.pingCount = PingMsg.initFail) :
    cycle env sp st = ({ st with pingCount := st.pingCount + 1, targets := st.targets ++ [sp.ping_ip], trace := st.trace ++ [Event.probe], panicked := true }) := by
  have h1 : pingOnce env sp.ping_ip st = ({ st with pingCount := st.pingCount + 1, targets := st.targets ++ [sp.ping_ip], trace := st.trace ++ [Event.probe], panicked := true }) := by
    simp only [pingOnce, hping, ping_callback]
  have h2 : pingIter env sp st = ({ st with pingCount := st.pingCount + 1, targets := st.targets ++ [sp.ping_ip], trace := st.trace ++ [Event.probe], panicked := true }) := by
    simp only [pingIter, hstop, hpan, Bool.false_eq_true, if_false, h1, if_true]
  have h3 : pingPhase env sp latency_download_quota st = ({ st with pingCount := st.pingCount + 1, targets := st.targets ++ [sp.ping_ip], trace := st.trace ++ [Event.probe], panicked := true }) := by
    have e1 : latency_download_quota = 9 + 1 := rfl
    rw [e1, pingPhase_succ, h2, pingPhase_of_panicked env sp 9 _ rfl]
  simp only [cycle, hstop, hpan, Bool.false_eq_true, if_false, h3, if_true]

theorem runLoop_initFail (env : Env) (sp : Spawned) (t0 fuel : Nat)
    (hping : ∀ s n, env.ping s n = PingMsg.initFail) :
    runLoop env sp (fuel + 1) (initState t0) = ({ initState t0 with pingCount := 1, targets := [sp.ping_ip], trace := [Event.probe], panicked := true }) := by
  rw [runLoop_succ, cycle_initFail env sp (initState t0) rfl rfl (hping _ _),
    runLoop_of_panicked env sp fuel _ rfl]
  simp [initState]

/-- C1 counterexample.  `MeasurementBuilder` (src/src/lib.rs:154-164) has
no total-duration field at all and the loop of `run_periodic` checks no
elapsed time.  Reading the claim with a hypothetical cap `d = 0` and
slack one probe interval (`ping_delay = 1`) for a run started at
`t0 = 0`: already the first cycle publishes a latency datapoint stamped
`2 > t0 + d + ping_delay`, and the loop has neither stopped nor
panicked — the stream has not closed. -/
theorem run_periodic_exceeds_any_duration_cap :
    Datapoint.Latency (some 0) 2 ∈ (runLoop env_live spawn_delay1 1 (initState 0)).published
    ∧ 0 + 0 + spawn_delay1.ping_delay < 2
    ∧ (runLoop env_live spawn_delay1 1 (initState 0)).stop = false
    ∧ (runLoop env_live spawn_delay1 1 (initState 0)).panicked = false := by
  refine ⟨by decide, by decide, by decide, by decide⟩

/-- C1 (amended): the configuration has no total-run duration cap and the
periodic loop has no time-based exit: whenever every send succeeds (the
consumer keeps the stream open) and the platform can ping, the loop is
still running — neither stopped nor panicked — after any number of
cycles; its only termination conditions are a failed publish or the
probe-setup panic. -/
theorem run_periodic_no_time_based_exit (env : Env) (b : Spawned) (t0 fuel : Nat)
    (hsend : ∀ n, env.sendOk n = true)
    (hping : ∀ s n, env.ping s n ≠ PingMsg.initFail) :
    (runLoop env b fuel (initState t0)).stop = false
    ∧ (runLoop env b fuel (initState t0)).panicked = false :=
  runLoop_live env b hsend hping fuel (initState t0) ⟨rfl, rfl⟩

/-- Witness for `run_periodic_no_time_based_exit` after three cycles of a
live run. -/
theorem run_periodic_no_time_based_exit_witness :
    (runLoop env_live spawn_delay1 3 (initState 0)).stop = false
    ∧ (runLoop env_live spawn_delay1 3 (initState 0)).panicked = false :=
  run_periodic_no_time_based_exit env_live spawn_delay1 0 3 (fun _ => rfl)
    (fun _ _ h => PingMsg.noConfusion h)

/-- C2 counterexample.  On a platform that cannot ping at all,
`run_periodic` STILL returns `Ok(receiver)` — the claim demands that it
return an error — and the background loop does start: its first cycle
performs a probe attempt (`pingCount = 1`) and then dies of the
`expect("Ping failed on this system")` panic, having published
nothing. -/
theorem run_periodic_ok_despite_ping_init_failure :
    run_periodic builder_plain = Except.ok spawn_plain
    ∧ (runLoop env_noping spawn_plain 1 (initState 0)).pingCount = 1
    ∧ (runLoop env_noping spawn_plain 1 (initState 0)).panicked = true
    ∧ (runLoop env_noping spawn_plain 1 (initState 0)).published = [] := by
  refine ⟨rfl, by decide, by decide, by decide⟩

/-- C2 (amended): `run_periodic` contains no fallible operation before
`thread::spawn`, so even when the probe adapter cannot be initialized it
returns `Ok(receiver)` and the background loop starts; the failure
surfaces as a panic inside the background thread at its first probe
(after which nothing has been published).  Only the one-shot `run`
surfaces the probe-initialization error synchronously to its caller. -/
theorem ping_init_failure_panics_background_thread (b : MeasurementBuilder)
    (sp : Spawned) (env : Env) (t0 fuel : Nat)
    (hsp : run_periodic b = Except.ok sp)
    (hping : ∀ s n, env.ping s n = PingMsg.initFail) :
    (run_periodic b).isOk = true
    ∧ (runLoop env sp (fuel + 1) (initState t0)).panicked = true
    ∧ (runLoop env sp (fuel + 1) (initState t0)).published = []
    ∧ run b env t0 = Except.error () := by
  have hr := runLoop_initFail env sp t0 fuel hping
  refine ⟨by rw [hsp]; rfl, ?_, ?_, by simp [run, hping, ping_callback]⟩
  · rw [hr]
  · rw [hr]
    simp [initState]

/-- Witness for `ping_init_failure_panics_background_thread` on
`builder_plain` under `env_noping`. -/
theorem ping_init_failure_panics_background_thread_witness :
    (run_periodic builder_plain).isOk = true
    ∧ (runLoop env_noping spawn_plain (0 + 1) (initState 0)).panicked = true
    ∧ (runLoop env_noping spawn_plain (0 + 1) (initState 0)).published = []
    ∧ run builder_plain env_noping 0 = Except.error () :=
  ping_init_failure_panics_background_thread builder_plain spawn_plain env_noping 0 0
    rfl (fun _ _ => rfl)

/-- C9: dropping the stream is observed at the very next send attempt and
is terminal.  For every environment and any number of cycles: if the loop
has stopped, the failed publish is the LAST event of its trace — no
latency probe, no download and no further send happened after it; if it
has not stopped, no publish has ever failed; and from any stopped state,
any further iterations change nothing. -/
theorem run_periodic_send_failure_is_terminal (env : Env) (b : Spawned) (t0 fuel : Nat) :
    ((runLoop env b fuel (initState t0)).stop = true →
      ∃ pre, (runLoop env b fuel (initState t0)).trace = pre ++ [Event.sendFail])
    ∧ ((runLoop env b fuel (initState t0)).stop = false →
      Event.sendFail ∉ (runLoop env b fuel (initState t0)).trace)
    ∧ (∀ m (st : ThreadState), st.stop = true → runLoop env b m st = st) := by
  have h0 : TraceInv (initState t0) := ⟨(fun hc => nomatch hc), (fun _ => by simp [initState])⟩
  have h := runLoop_traceInv env b fuel (initState t0) h0
  exact ⟨h.1, h.2, fun m st hst => runLoop_of_stop env b m st hst⟩

/-- Witness for `run_periodic_send_failure_is_terminal`: the consumer of
`env_drop3` reads three datapoints and drops the stream; the fourth send
fails during the first cycle, and five further cycles change nothing. -/
theorem run_periodic_send_failure_is_terminal_witness :
    runLoop env_drop3 spawn_plain 5 (runLoop env_drop3 spawn_plain 1 (initState 0))
      = runLoop env_drop3 spawn_plain 1 (initState 0) :=
  (run_periodic_send_failure_is_terminal env_drop3 spawn_plain 0 1).2.2 5
    (runLoop env_drop3 spawn_plain 1 (initState 0)) (by decide)

/-- C10: with an empty ping-target list the target expression resolves to
the default host 8.8.8.8, which both the one-shot `run` (whose probe is
`env.ping (run_ping_target b) 0` by definition of `run`) and the periodic
loop then probe; with a non-empty list it resolves to the FIRST target;
and every probe of the spawned loop is against exactly that resolved
target. -/
theorem ping_target_defaulting (b : MeasurementBuilder) (sp : Spawned)
    (hsp : run_periodic b = Except.ok sp) :
    (b.ping_ips = [] → run_ping_target b = "8.8.8.8")
    ∧ (∀ ip rest, b.ping_ips = ip :: rest → run_ping_target b = ip)
    ∧ sp.ping_ip = run_ping_target b
    ∧ (∀ env fuel t0 s, s ∈ (runLoop env sp fuel (initState t0)).targets →
        s = run_ping_target b) := by
  have hspv : sp = { ping_ip := run_ping_target b, ping_delay := b.ping_delay, download_urls := b.downloads_urls } := by
    have := hsp
    simp only [run_periodic, Except.ok.injEq] at this
    exact this.symm
  refine ⟨?_, ?_, ?_, ?_⟩
  · intro h
    simp [run_ping_target, h]
  · intro ip rest h
    simp [run_ping_target, h]
  · rw [hspv]
  · intro env fuel t0 s hs
    rcases runLoop_targets env sp s fuel (initState t0) hs with h | h
    · simp [initState] at h
    · rw [h, hspv]

/-- Witness for `ping_target_defaulting`: the empty-target builder
resolves to 8.8.8.8, and the target probed in a live one-cycle run is
exactly that resolved target. -/
theorem ping_target_defaulting_witness :
    builder_noip.ping_ips = []
    ∧ run_ping_target builder_noip = "8.8.8.8"
    ∧ ("8.8.8.8" : String) = run_ping_target builder_noip :=
  ⟨rfl,
    (ping_target_defaulting builder_noip
      ⟨"8.8.8.8", 0, []⟩ rfl).1 rfl,
    (ping_target_defaulting builder_noip
      ⟨"8.8.8.8", 0, []⟩ rfl).2.2.2 env_live 1 0 "8.8.8.8" (by decide)⟩

end Linetest
